import Mathlib

/-!
Verification development for the Unifai multi-agent chat core
(`agent/src/multi-agent/`): the turn orchestrator (`ChatWorkflowManager`),
the response normalizer (`ResponseFormatter`), the persona selector
(`AgentSelector`) and the HTTP turn-request interface
(`setupMultiAgentChatEndpoint`).

JavaScript strings are modelled as `List Char`.  Each regular-expression
substitution of the source is embedded as a hand-written scanner with the
same matching semantics (leftmost match, greedy with the backtracking the
concrete pattern needs, global scan continuing after each match).
`Math.random()` draws are modelled as explicitly passed rational numbers
in `[0, 1)`.  Scanners that skip past a match recurse on a fuel argument
initialised to the string length, an upper bound on the number of steps
because every step consumes at least one character.
-/

set_option maxRecDepth 65536

namespace Unifai

/-- JavaScript strings as lists of characters. -/
abbrev Str := List Char

/-- Turn a Lean string literal into the `Str` model. -/
def strL (s : String) : Str := s.data

/-- ASCII lower-casing of one character, as `String.prototype.toLowerCase`
acts on the source's ASCII inputs. -/
def lowerChar (c : Char) : Char :=
  if 'A' ≤ c ∧ c ≤ 'Z' then Char.ofNat (c.toNat + 32) else c

/-- `toLowerCase` over a whole string. -/
def lowerStr (s : Str) : Str := s.map lowerChar

/-- JavaScript regex `\w`: ASCII letters, digits and underscore. -/
def isWordChar (c : Char) : Bool :=
  ('a' ≤ c ∧ c ≤ 'z') ∨ ('A' ≤ c ∧ c ≤ 'Z') ∨ ('0' ≤ c ∧ c ≤ '9') ∨ c = '_'

/-- Whitespace as used by the source's `\s`, `trim` and friends, restricted
to the whitespace characters that occur in chat text. -/
def isWSChar (c : Char) : Bool :=
  c = ' ' ∨ c = '\n' ∨ c = '\t' ∨ c = '\r'

/-- ASCII decimal digit (`\d`). -/
def isDigitChar (c : Char) : Bool := '0' ≤ c ∧ c ≤ '9'

/-- ASCII upper-case letter (`[A-Z]`). -/
def isUpperAZ (c : Char) : Bool := 'A' ≤ c ∧ c ≤ 'Z'

/-- ASCII lower-case letter (`[a-z]`). -/
def isLowerAZ (c : Char) : Bool := 'a' ≤ c ∧ c ≤ 'z'

/-- Upper-case one character (`toUpperCase` on the first letter). -/
def upperChar (c : Char) : Char :=
  if 'a' ≤ c ∧ c ≤ 'z' then Char.ofNat (c.toNat - 32) else c

/-- `String.prototype.trim`: strip leading and trailing whitespace. -/
def trimStr (s : Str) : Str :=
  (((s.dropWhile (fun c => isWSChar c)).reverse.dropWhile (fun c => isWSChar c)).reverse)

/-- `String.prototype.includes`: substring search. -/
def hasSub (s pat : Str) : Bool :=
  if pat.isPrefixOf s then true
  else
    match s with
    | [] => false
    | _ :: t => hasSub t pat

/-- `String.prototype.indexOf`: index of the first occurrence of `pat`. -/
def idxOfSub (s pat : Str) : Option Nat :=
  if pat.isPrefixOf s then some 0
  else
    match s with
    | [] => none
    | _ :: t => (idxOfSub t pat).map (· + 1)

/-- Case-insensitive prefix test: `pat` is given lower-cased and compared
against the lower-cased characters of the subject. -/
def ciPrefix : Str → Str → Bool
  | [], _ => true
  | _ :: _, [] => false
  | p :: ps, c :: cs => (lowerChar c = p) && ciPrefix ps cs

/-- Case-insensitive `startsWith`, both sides lower-cased via `ciPrefix`. -/
def startsWithCI (s pat : Str) : Bool := ciPrefix pat s

/-- Generic global-replace scanner: at every position `step` either matches
(returning the replacement and the rest of the string after the match) or
not; on a match the scan continues after it, as a JavaScript global
`replace` does.  `fuel` starts at the string length; every step consumes
at least one character, so the fuel never runs out on the calls below. -/
def scanReplF (step : Str → Option (Str × Str)) : Nat → Str → Str
  | _, [] => []
  | 0, s => s
  | fuel + 1, c :: rest =>
    match step (c :: rest) with
    | some (r, after) => r ++ scanReplF step fuel after
    | none => c :: scanReplF step fuel rest

/-- Global-replace scanner that also tracks the previous character of the
original string, for patterns anchored on a word boundary `\b`. -/
def scanReplB (step : Option Char → Str → Option (Str × Option Char × Str)) :
    Nat → Option Char → Str → Str
  | _, _, [] => []
  | 0, _, s => s
  | fuel + 1, prev, c :: rest =>
    match step prev (c :: rest) with
    | some (r, last, after) => r ++ scanReplB step fuel last after
    | none => c :: scanReplB step fuel (some c) rest

/-- Generic existence scanner for regex `test`: does any position of the
string start a match of `probe`? -/
def scanTest (probe : Str → Bool) : Str → Bool
  | [] => false
  | c :: rest => probe (c :: rest) || scanTest probe rest

/-- `String.prototype.split(sep)` with a literal separator, left-to-right
non-overlapping, as in JavaScript. -/
def splitOnSubF (pat : Str) : Nat → Str → Str → List Str
  | _, acc, [] => [acc.reverse]
  | 0, acc, s => [acc.reverse ++ s]
  | fuel + 1, acc, c :: rest =>
    if pat ≠ [] ∧ pat.isPrefixOf (c :: rest) then
      acc.reverse :: splitOnSubF pat fuel [] ((c :: rest).drop pat.length)
    else
      splitOnSubF pat fuel (c :: acc) rest

/-- `split` on a literal separator. -/
def splitOnSub (pat s : Str) : List Str := splitOnSubF pat s.length [] s

/-- `split` on a character class: every separator character ends the
current field (JavaScript `split(' ')` semantics, empty fields kept). -/
def splitCharsBy (p : Char → Bool) : Str → List Str
  | [] => [[]]
  | c :: rest =>
    if p c then [] :: splitCharsBy p rest
    else
      match splitCharsBy p rest with
      | h :: t => (c :: h) :: t
      | [] => [[c]]

/-- Fuel-driven worker for `splitNonWordRuns`; every step consumes at
least one character, so fuel equal to the string length suffices. -/
def splitNonWordRunsF : Nat → Str → List Str
  | _, [] => [[]]
  | 0, s => [s]
  | fuel + 1, c :: rest =>
    if isWordChar c then
      match splitNonWordRunsF fuel rest with
      | h :: t => (c :: h) :: t
      | [] => [[c]]
    else
      [] :: splitNonWordRunsF fuel (rest.dropWhile (fun d => !(isWordChar d)))

/-- `message.split(/\W+/)`: a maximal run of non-word characters is one
separator.  A leading or trailing separator run yields an empty field, as
in JavaScript; the source filters the fields by length afterwards. -/
def splitNonWordRuns (s : Str) : List Str := splitNonWordRunsF s.length s

/-! ### Exact fractions

The source's JavaScript number arithmetic (probabilities, length budgets,
similarity ratios) is modelled exactly as rational arithmetic.  `Rat`'s
operations normalise through `Nat.gcd`, which the kernel cannot reduce, so
the embedding computes with unnormalised fractions (`Frac`) — integer
numerator over positive integer denominator, compared by
cross-multiplication — and bridges to `ℚ` through `Frac.toRat` for the
symbolic statements.  Every strict-inequality branch the claims depend on
holds with a wide margin, so the exact-rational reading of the JavaScript
floats is faithful for these properties. -/

/-- An unnormalised fraction; all fractions built below have a positive
denominator. -/
structure Frac : Type where
  num : Int
  den : Int
deriving DecidableEq, Repr

/-- Fraction `n / d`. -/
def fq (n d : Int) : Frac := ⟨n, d⟩

/-- A natural number as a fraction. -/
def Frac.ofNat (n : Nat) : Frac := ⟨(n : Int), 1⟩

/-- A rational draw as a fraction (field access, no normalisation). -/
def Frac.ofRat (q : ℚ) : Frac := ⟨q.num, (q.den : Int)⟩

/-- The rational value of a fraction. -/
def Frac.toRat (a : Frac) : ℚ := (a.num : ℚ) / (a.den : ℚ)

/-- Product. -/
def Frac.mul (a b : Frac) : Frac := ⟨a.num * b.num, a.den * b.den⟩

/-- Sum. -/
def Frac.add (a b : Frac) : Frac := ⟨a.num * b.den + b.num * a.den, a.den * b.den⟩

/-- Difference. -/
def Frac.sub (a b : Frac) : Frac := ⟨a.num * b.den - b.num * a.den, a.den * b.den⟩

/-- Quotient. -/
def Frac.div (a b : Frac) : Frac := ⟨a.num * b.den, a.den * b.num⟩

/-- Strict comparison by cross-multiplication (valid for positive
denominators). -/
def Frac.blt (a b : Frac) : Bool := a.num * b.den < b.num * a.den

/-- Non-strict comparison by cross-multiplication. -/
def Frac.ble (a b : Frac) : Bool := a.num * b.den ≤ b.num * a.den

/-- `Math.floor`-style truncation to a natural number, as JavaScript's
`substring` coerces its bound (negative values clamp to zero). -/
def Frac.floorNat (a : Frac) : Nat := (a.num.fdiv a.den).toNat

/-! ### Conversation data model (`types.ts`, `chatWorkflowManager.ts`) -/

/-- Role of a `messageHistory` entry. -/
inductive Role : Type
  | user
  | assistant
  | system
deriving DecidableEq, Repr

/-- One entry of `context.messageHistory`: role, content, and the optional
agent name attached to assistant entries. -/
structure HistEntry : Type where
  role : Role
  content : Str
  name : Option Str
deriving DecidableEq, Repr

/-- A `ConversationContext` together with the per-session topic record that
`ChatWorkflowManager` keeps in `sessionTopics` (the two are keyed by the
same session id, so one structure models both).  `currentTopic` strings
derived from `Date.now()` are abstracted to a fixed label, which nothing
else reads. -/
structure Ctx : Type where
  turn : Nat := 0
  lastAgent : Option Str := none
  userMessage : Option Str := none
  lastUserMessage : Option Str := none
  messageHistory : List HistEntry := []
  directlyAddressed : Bool := false
  currentTopic : Str := strL "general"
  previousTopics : List Str := []
deriving DecidableEq, Repr

/-- A fresh context, as `getOrCreateContext` makes it: `turn = 0`, empty
history (remaining fields start as JavaScript `undefined`, i.e. falsy). -/
def freshCtx : Ctx := {}

/-- One `{agent, message}` element of the returned conversation. -/
structure AgentResponse : Type where
  agent : Str
  message : Str
deriving DecidableEq, Repr

/-! ### Topic-change detection (`isNewTopic`, `handleTopicChange`) -/

/-- The explicit topic-change cue list of `isNewTopic`. -/
def topicChangeCues : List Str :=
  [strL "new topic", strL "different topic", strL "change subject"]

/-- `ChatWorkflowManager.isNewTopic`: explicit cue check, then a token
overlap similarity: words are maximal `\w` runs longer than 3 characters,
taken as sets; similarity is the distinct-intersection size over the
current set size (or 1 when the current set is empty). -/
def isNewTopic (currentMessage lastMessage : Str) : Bool :=
  if lastMessage = [] then false
  else
    let messageLower := lowerStr currentMessage
    if topicChangeCues.any (fun cue => hasSub messageLower cue) then true
    else
      let currentWords :=
        (((splitNonWordRuns messageLower).filter (fun w => w.length > 3))).dedup
      let lastWords :=
        (((splitNonWordRuns (lowerStr lastMessage)).filter (fun w => w.length > 3))).dedup
      let inter := currentWords.filter (fun w => w ∈ lastWords)
      let similarity : Frac :=
        (Frac.ofNat inter.length).div
          (Frac.ofNat (if currentWords.length = 0 then 1 else currentWords.length))
      similarity.blt (fq 3 20)

/-- The synthetic history entry content marking a topic change. -/
def topicMarker : Str := strL "--- Topic change ---"

/-- `ChatWorkflowManager.handleTopicChange`: when `context.lastUserMessage`
is truthy (set and non-empty) and `isNewTopic` fires, record the topic
switch and push a system `"--- Topic change ---"` entry.  Note the check
reads `lastUserMessage` as it stands when `processMessage` begins, before
the turn's own context update. -/
def handleTopicChange (message : Str) (ctx : Ctx) : Ctx :=
  match ctx.lastUserMessage with
  | some last =>
    if last ≠ [] ∧ isNewTopic message last then
      { ctx with
          previousTopics := ctx.previousTopics ++ [ctx.currentTopic]
          currentTopic := strL "topic-now"
          messageHistory := ctx.messageHistory ++ [⟨Role.system, topicMarker, none⟩] }
    else ctx
  | none => ctx

/-! ### Direct addressing and agent-order resolution
(`determineRespondingAgents`, `getDirectlyAddressedAgents`) -/

/-- The manager's preferred roster order. -/
def defaultAgentSequence : List Str :=
  [strL "Analyst Alex", strL "Curious Clara", strL "Strategic Sam"]

/-- `agent.split(' ')[1]`: the word after the first space, when present. -/
def firstNameOf (agent : Str) : Option Str :=
  match splitCharsBy (fun c => c = ' ') agent with
  | _ :: second :: _ => some second
  | _ => none

/-- `availableAgents`: the preferred roster filtered to the runtimes
actually registered. -/
def availableAgentsOf (runtimesKeys : List Str) : List Str :=
  defaultAgentSequence.filter (fun name => name ∈ runtimesKeys)

/-- `ChatWorkflowManager.getDirectlyAddressedAgents`: an available agent
is addressed when the lower-cased message starts with its first name, or
contains `"first,"`, `"first:"`, `"full,"` or `"full:"`.  Agents without a
second name word are skipped (`if (!firstName) continue`). -/
def getDirectlyAddressedAgents (message : Str) (availableAgents : List Str) : List Str :=
  let messageLower := lowerStr message
  availableAgents.filter (fun agent =>
    match firstNameOf agent with
    | none => false
    | some fn =>
      let firstName := lowerStr fn
      if firstName = [] then false
      else
        let fullName := lowerStr agent
        firstName.isPrefixOf messageLower
          || hasSub messageLower (firstName ++ [','])
          || hasSub messageLower (firstName ++ [':'])
          || hasSub messageLower (fullName ++ [','])
          || hasSub messageLower (fullName ++ [':']))

/-- `ChatWorkflowManager.determineRespondingAgents`, parameterised by the
`AgentSelector.selectAgents` call so selector-independence is statable.
Returns the agent order and whether `context.directlyAddressed` was set.
The source's inner single-addressee check is kept verbatim: both of its
branches return `directlyAddressedAgents`. -/
def determineRespondingAgents (runtimesKeys : List Str) (message : Str) (ctx : Ctx)
    (selector : Str → List Str → Ctx → List Str) : List Str × Bool :=
  let availableAgents := availableAgentsOf runtimesKeys
  if availableAgents = [] then (runtimesKeys.take 3, false)
  else
    let addressed := getDirectlyAddressedAgents message availableAgents
    if addressed ≠ [] then
      if addressed.length = 1
          ∧ ¬ (hasSub (lowerStr message) (strL "everyone") = true)
          ∧ ¬ (hasSub (lowerStr message) (strL "all") = true) then
        (addressed, true)
      else (addressed, true)
    else (selector message availableAgents ctx, false)

/-- The same order resolution with the single-addressee condition removed:
the addressed set, when non-empty, is returned directly.  Stated from the
observation that both branches of the source's inner condition return the
same value; `determine_eq_noSingleCheck` proves the two agree. -/
def determineRespondingAgentsNoSingleCheck (runtimesKeys : List Str) (message : Str)
    (ctx : Ctx) (selector : Str → List Str → Ctx → List Str) : List Str × Bool :=
  let availableAgents := availableAgentsOf runtimesKeys
  if availableAgents = [] then (runtimesKeys.take 3, false)
  else
    let addressed := getDirectlyAddressedAgents message availableAgents
    if addressed ≠ [] then (addressed, true)
    else (selector message availableAgents ctx, false)

/-! ### Response normalizer (`responseFormatter.ts`) — cleanup pipeline -/

/-- The AI-disclaimer openings of `processResponse` step 1. -/
def aiPrefixes : List Str :=
  [strL "As an AI assistant", strL "I'll respond as", strL "I'll help you with",
   strL "I'm responding as", strL "I am an AI", strL "As a language model"]

/-- Step 1: for each disclaimer opening, when the text starts with it
(case-insensitively), drop up to the first blank line and trim. -/
def stripAIDisclaimers (s : Str) : Str :=
  aiPrefixes.foldl
    (fun acc p =>
      if (lowerStr p).isPrefixOf (lowerStr acc) then
        match idxOfSub acc (strL "\n\n") with
        | some i => trimStr (acc.drop i)
        | none => acc
      else acc)
    s

/-- One match of `\([^)]+\)`: an opening parenthesis with at least one
non-`)` character before the next closing parenthesis. -/
def parenStep (s : Str) : Option (Str × Str) :=
  match s with
  | '(' :: rest =>
    match idxOfSub rest [')'] with
    | some k => if 1 ≤ k then some ([], rest.drop (k + 1)) else none
    | none => none
  | _ => none

/-- Step 2: `replace(/\([^)]+\)/g, '')`. -/
def removeParens (s : Str) : Str := scanReplF parenStep s.length s

/-- The fixed name list of `processResponse` step 3. -/
def otherAgentNames : List Str :=
  [strL "Alex", strL "Clara", strL "Sam",
   strL "Analyst Alex", strL "Curious Clara", strL "Strategic Sam"]

/-- Case-insensitive literal match followed by `[^\n]*`: delete through
the end of the line. -/
def ciLineStep (pat : Str) (s : Str) : Option (Str × Str) :=
  if ciPrefix pat s then
    some ([], (s.drop pat.length).dropWhile (fun c => !(c = '\n')))
  else none

/-- As `ciLineStep` with two literal alternatives tried in order (for the
optional `(?:curious )?` group, greedy: the longer form first). -/
def ciLineStep2 (patA patB : Str) (s : Str) : Option (Str × Str) :=
  if ciPrefix patA s then
    some ([], (s.drop patA.length).dropWhile (fun c => !(c = '\n')))
  else if ciPrefix patB s then
    some ([], (s.drop patB.length).dropWhile (fun c => !(c = '\n')))
  else none

/-- Step 3: for every name, remove `\((?:curious )?question from name\)…`,
`name asks:…` and `name's question:…` through the end of the line
(case-insensitive, global), in the source's order. -/
def removeQuestionPats (s : Str) : Str :=
  otherAgentNames.foldl
    (fun acc name =>
      let n := lowerStr name
      let acc1 := scanReplF
        (ciLineStep2 (strL "(curious question from " ++ n ++ [')'])
                     (strL "(question from " ++ n ++ [')'])) acc.length acc
      let acc2 := scanReplF (ciLineStep (n ++ strL " asks:")) acc1.length acc1
      scanReplF (ciLineStep (n ++ strL "'s question:")) acc2.length acc2)
    s

/-- The verb alternatives of the third-person self-reference patterns, in
the source's alternation order. -/
def selfRefVerbs : List Str :=
  [strL "thinks", strL "believes", strL "says", strL "notes", strL "points out",
   strL "suggests", strL "agrees", strL "adds", strL "would say"]

/-- One match of `name (thinks|believes|…)` (case-insensitive): the whole
match, verb included, is replaced by `I`. -/
def nameVerbStep (name : Str) (s : Str) : Option (Str × Str) :=
  if ciPrefix (name ++ [' ']) s then
    let rest := s.drop (name.length + 1)
    match selfRefVerbs.find? (fun v => ciPrefix v rest) with
    | some v => some (strL "I", rest.drop v.length)
    | none => none
  else none

/-- Step 4: rewrite third-person self-references for the full name, then
the first name. -/
def replaceSelfRefs (agentName firstName : Str) (s : Str) : Str :=
  let s1 := scanReplF (nameVerbStep (lowerStr agentName)) s.length s
  scanReplF (nameVerbStep (lowerStr firstName)) s1.length s1

/-- Step 5: strip a leading role label (`name:`, `first:`, `Assistant:`,
`AI:`, case-sensitive), trimming after each strip, in order. -/
def stripRoleLabels (agentName firstName : Str) (s : Str) : Str :=
  [agentName ++ [':'], firstName ++ [':'], strL "Assistant:", strL "AI:"].foldl
    (fun acc pre => if pre.isPrefixOf acc then trimStr (acc.drop pre.length) else acc)
    s

/-- One physical-action pattern of step 6: head alternatives (the verb's
inflected forms, in the suffix alternation's order) followed by
`(?: \w+)*` and an optional required final `(?: (?:tail))` group. -/
structure ActPattern : Type where
  heads : List Str
  tails : List Str

/-- The body-language patterns of step 6, in the source's order. -/
def physPatterns : List ActPattern :=
  [ ⟨[strL "leans", strL "leaned", strL "leaning"],
     [strL "forward", strL "back", strL "in", strL "on"]⟩,
    ⟨[strL "sits", strL "sitting"], [strL "up", strL "down", strL "back"]⟩,
    ⟨[strL "stands", strL "standing"], [strL "up", strL "back"]⟩,
    ⟨[strL "nods", strL "nodding"], []⟩,
    ⟨[strL "smiles", strL "smiled", strL "smileing"], []⟩,
    ⟨[strL "laughs", strL "laughed", strL "laughing"], []⟩,
    ⟨[strL "smirks", strL "smirked", strL "smirking"], []⟩,
    ⟨[strL "winks", strL "winked", strL "winking"], []⟩,
    ⟨[strL "gestures", strL "gestured", strL "gestureing"], []⟩ ]

/-- Parse one `(?: \w+)` pair: a space then a nonempty word-character run;
returns the rest after the pair. -/
def parsePair : Str → Option Str
  | ' ' :: d :: rest =>
    if isWordChar d then some ((d :: rest).dropWhile isWordChar) else none
  | _ => none

/-- The suspension points of the greedy `(?: \w+)*`: the rests after
0, 1, … pairs, in order. -/
def pairStopsF : Nat → Str → List Str
  | 0, s => [s]
  | fuel + 1, s =>
    match parsePair s with
    | some r => s :: pairStopsF fuel r
    | none => [s]

/-- Try the required final group at one suspension point: a space and a
tail alternative as a (case-insensitive) literal; returns the rest after
the match end. -/
def tailAt (tails : List Str) (q : Str) : Option Str :=
  match q with
  | ' ' :: r => (tails.find? (fun t => ciPrefix t r)).map (fun t => r.drop t.length)
  | _ => none

/-- Match one physical-action pattern at this position (the word boundary
was checked by the caller): head, greedy pairs, and — when the pattern has
a required tail — backtracking from the longest pair sequence. -/
def actMatch (pat : ActPattern) (s : Str) : Option Str :=
  match pat.heads.find? (fun h => ciPrefix h s) with
  | none => none
  | some h =>
    let afterHead := s.drop h.length
    let stops := pairStopsF afterHead.length afterHead
    if pat.tails = [] then some (stops.getLastD afterHead)
    else stops.reverse.findSome? (tailAt pat.tails)

/-- One scan step for a physical-action pattern: require a word boundary
(`\b`) before the head.  Every such match ends in a word character, which
is all the boundary tracking consults, so a representative word character
is passed on. -/
def physStep (pat : ActPattern) (prev : Option Char) (s : Str) :
    Option (Str × Option Char × Str) :=
  if (match prev with | none => true | some p => !(isWordChar p)) then
    match actMatch pat s with
    | some rest => some ([], some 'a', rest)
    | none => none
  else none

/-- One match of `\bin (?:his|her|their) chair\b` (case-insensitive). -/
def chairStep (prev : Option Char) (s : Str) : Option (Str × Option Char × Str) :=
  if (match prev with | none => true | some p => !(isWordChar p)) then
    match [strL "his", strL "her", strL "their"].find?
        (fun w => ciPrefix (strL "in " ++ w ++ strL " chair") s) with
    | some w =>
      let rest := s.drop (3 + w.length + 6)
      if (match rest with | [] => true | d :: _ => !(isWordChar d)) then
        some ([], some 'r', rest)
      else none
    | none => none
  else none

/-- Step 6: the nine body-language substitutions, then the chair pattern,
each a global pass in the source's order. -/
def removePhysicalActions (s : Str) : Str :=
  let s1 := physPatterns.foldl (fun acc pat => scanReplB (physStep pat) acc.length none acc) s
  scanReplB chairStep s1.length none s1

/-- One match of `\s{2,}`: two or more whitespace characters collapse to a
single space. -/
def wsCollapseStep (s : Str) : Option (Str × Str) :=
  match s with
  | a :: b :: rest =>
    if isWSChar a ∧ isWSChar b then some ([' '], (b :: rest).dropWhile isWSChar)
    else none
  | _ => none

/-- `replace(/\s{2,}/g, ' ')`. -/
def collapseSpaces (s : Str) : Str := scanReplF wsCollapseStep s.length s

/-- One match of `\n\s*\n\s*\n`: a newline whose following whitespace run
contains two more newlines; the greedy match ends at the run's last
newline. -/
def tripleNLStep (s : Str) : Option (Str × Str) :=
  match s with
  | '\n' :: rest =>
    let run := rest.takeWhile isWSChar
    if 2 ≤ (run.filter (fun c => c = '\n')).length then
      match run.reverse.findIdx? (fun c => c = '\n') with
      | some j => some (strL "\n\n", rest.drop (run.length - j))
      | none => none
    else none
  | _ => none

/-- `replace(/\n\s*\n\s*\n/g, '\n\n')`. -/
def collapseTripleNewlines (s : Str) : Str := scanReplF tripleNLStep s.length s

/-- Sentence terminators `[.!?]`. -/
def isTermChar (c : Char) : Bool := c = '.' ∨ c = '!' ∨ c = '?'

/-- One match of `([.!?])\s*([A-Z])`, replaced by `$1 $2`. -/
def punctCapStep (s : Str) : Option (Str × Str) :=
  match s with
  | c :: rest =>
    if isTermChar c then
      let ws := rest.takeWhile isWSChar
      match rest.drop ws.length with
      | u :: after => if isUpperAZ u then some ([c, ' ', u], after) else none
      | [] => none
    else none
  | [] => none

/-- `replace(/([.!?])\s*([A-Z])/g, '$1 $2')`. -/
def fixSentenceSpacing (s : Str) : Str := scanReplF punctCapStep s.length s

/-- The dangling-conjunction alternatives, in the source's alternation
order (case-sensitive). -/
def conjWords : List Str :=
  [strL "And", strL "But", strL "So", strL "Because",
   strL "However", strL "Therefore", strL "Thus"]

/-- One match of `\n\s*(And|But|…)\s+`, replaced by `\n`. -/
def lineConjStep (s : Str) : Option (Str × Str) :=
  match s with
  | '\n' :: rest =>
    let p := rest.dropWhile isWSChar
    match conjWords.find? (fun w => w.isPrefixOf p &&
        (match p.drop w.length with | d :: _ => isWSChar d | [] => false)) with
    | some w => some (['\n'], (p.drop w.length).dropWhile isWSChar)
    | none => none
  | _ => none

/-- `replace(/\n\s*(And|But|So|Because|However|Therefore|Thus)\s+/g, '\n')`. -/
def stripLineConjunctions (s : Str) : Str := scanReplF lineConjStep s.length s

/-- `replace(/^(And|But|So|Because|However|Therefore|Thus)\s+/, '')`: only
at the very start, conjunction followed by at least one whitespace. -/
def stripLeadingConjunction (s : Str) : Str :=
  match conjWords.find? (fun w => w.isPrefixOf s &&
      (match s.drop w.length with | d :: _ => isWSChar d | [] => false)) with
  | some w => (s.drop w.length).dropWhile isWSChar
  | none => s

/-- Re-capitalise the first character when it is a lower-case letter. -/
def capitalizeFirst (s : Str) : Str :=
  match s with
  | c :: rest => if isLowerAZ c then upperChar c :: rest else c :: rest
  | [] => []

/-- Step 7: the whitespace/punctuation repairs, in the source's order. -/
def fixFormatting (s : Str) : Str :=
  capitalizeFirst (stripLeadingConjunction (stripLineConjunctions
    (fixSentenceSpacing (collapseTripleNewlines (collapseSpaces s)))))

/-- Global case-sensitive literal replacement. -/
def replaceAllLit (pat repl : Str) (s : Str) : Str :=
  scanReplF
    (fun t => if pat ≠ [] ∧ pat.isPrefixOf t then some (repl, t.drop pat.length) else none)
    s.length s

/-- Step 8: the residual `I, name,` / `first thinks` corrections
(case-sensitive, global), in the source's order. -/
def nameCorrections (agentName firstName : Str) (s : Str) : Str :=
  let s1 := replaceAllLit (strL "I, " ++ firstName ++ [',']) (strL "I") s
  let s2 := replaceAllLit (strL "I, " ++ agentName ++ [',']) (strL "I") s1
  replaceAllLit (firstName ++ strL " thinks") (strL "I") s2

/-- The cleanup pipeline of `ResponseFormatter.processResponse` (steps 1–8
after the initial trim), as an ordered list of stages; `firstName` is
`agentName.split(' ')[1] || ''`. -/
def cleanupSteps (agentName : Str) : List (Str → Str) :=
  let firstName := (firstNameOf agentName).getD []
  [ trimStr,
    stripAIDisclaimers,
    removeParens,
    removeQuestionPats,
    replaceSelfRefs agentName firstName,
    stripRoleLabels agentName firstName,
    removePhysicalActions,
    fixFormatting,
    nameCorrections agentName firstName ]

/-- The whole cleanup pipeline applied in order. -/
def cleanupPhase (agentName responseText : Str) : Str :=
  (cleanupSteps agentName).foldl (fun s f => f s) responseText

/-! ### Response normalizer — dynamic length governance -/

/-- The context signals `processResponse` reads from the shared
conversation context (`global.currentContext`). -/
structure Signals : Type where
  turn : Nat := 0
  directlyAddressed : Bool := false
  userMessage : Str := []
deriving DecidableEq, Repr

/-- `\b`-delimited case-insensitive alternation test (`\b(w1|w2|…)\b`):
some position has a non-word character (or the string start) before it, a
word alternative there, and a non-word character (or the end) after it.
The tracked flag says whether the previous character is a word character. -/
def testWordAltsGo (words : List Str) : Bool → Str → Bool
  | _, [] => false
  | prevW, c :: rest =>
    (!prevW && words.any (fun w =>
        ciPrefix w (c :: rest) &&
        (match (c :: rest).drop w.length with
         | [] => true
         | d :: _ => !(isWordChar d))))
    || testWordAltsGo words (isWordChar c) rest

/-- Regex `test` for a `\b(…|…)\b` alternation. -/
def testWordAlts (words : List Str) (s : Str) : Bool := testWordAltsGo words false s

/-- `\b(brief|quick|short|simple|summarize|concise)\b`. -/
def briefTerms : List Str :=
  [strL "brief", strL "quick", strL "short", strL "simple",
   strL "summarize", strL "concise"]

/-- `\b(detailed|comprehensive|thorough|explain|elaborate|in depth)\b`. -/
def detailTerms : List Str :=
  [strL "detailed", strL "comprehensive", strL "thorough", strL "explain",
   strL "elaborate", strL "in depth"]

/-- `\b(analysis|complex|difficult|challenging|compare|contrast|debate)\b`. -/
def complexTerms : List Str :=
  [strL "analysis", strL "complex", strL "difficult", strL "challenging",
   strL "compare", strL "contrast", strL "debate"]

/-- The word alternatives of the technical-content pattern. -/
def techWords : List Str :=
  [strL "analysis", strL "data", strL "statistics", strL "evidence", strL "metrics"]

/-- One position of `/\d%|\d+\.\d+|analysis|data|statistics|evidence|metrics/i`:
a digit directly before `%`, a digit–dot–digit triple (equivalent, as an
existence test, to `\d+\.\d+`), or a word alternative. -/
def techProbe (s : Str) : Bool :=
  (match s with
   | a :: b :: _ => isDigitChar a && (b = '%')
   | _ => false) ||
  (match s with
   | a :: b :: rest => isDigitChar a && (b = '.') &&
       (match rest with | c :: _ => isDigitChar c | [] => false)
   | _ => false) ||
  techWords.any (fun w => ciPrefix w s)

/-- The `isTechnical` regex test on the response text. -/
def isTechnicalText (s : Str) : Bool := scanTest techProbe s

/-- `baseLimits[agentName] || 450`. -/
def baseLimitOf (agentName : Str) : Frac :=
  if agentName = strL "Analyst Alex" then Frac.ofNat 1200
  else if agentName = strL "Curious Clara" then Frac.ofNat 750
  else if agentName = strL "Strategic Sam" then Frac.ofNat 850
  else Frac.ofNat 450

/-- The brief-response chance: base 0.35, `+0.4` when brief is requested
else `-0.25` when detail is requested, `+0.05·min(3, turn−3)` past turn 3,
`−0.1` for questions. -/
def briefChanceOf (wantsBrief wantsDetailed isQuestion : Bool) (turn : Nat) : Frac :=
  let c0 : Frac := fq 35 100
  let c1 :=
    if wantsBrief then c0.add (fq 40 100)
    else if wantsDetailed then c0.sub (fq 25 100)
    else c0
  let c2 :=
    if turn > 3 then c1.add ((fq 5 100).mul (Frac.ofNat (min 3 (turn - 3))))
    else c1
  if isQuestion then c2.sub (fq 10 100) else c2

/-- The first multiplicative adjustment of the character limit: the
brief / detailed-or-complex / directly-addressed / early-turn chain. -/
def mainFactor (agentName : Str) (wantsDetailed isComplexTopic isDirectlyAddressed : Bool)
    (turn : Nat) (isTechnical shouldBeBrief : Bool) : Frac :=
  if shouldBeBrief then
    if agentName = strL "Analyst Alex" then fq 50 100
    else if agentName = strL "Curious Clara" then fq 60 100
    else fq 55 100
  else if wantsDetailed ∨ isComplexTopic then
    if agentName = strL "Analyst Alex" ∧ isTechnical then fq 140 100
    else if agentName = strL "Curious Clara" then fq 130 100
    else fq 125 100
  else if isDirectlyAddressed then fq 120 100
  else if turn ≤ 2 then fq 110 100
  else fq 1 1

/-- The per-agent technical-content bonus. -/
def techFactor (agentName : Str) (isTechnical : Bool) : Frac :=
  if isTechnical then
    if agentName = strL "Analyst Alex" then fq 115 100
    else if agentName = strL "Strategic Sam" then fq 105 100
    else fq 1 1
  else fq 1 1

/-- The `±15%` jitter `0.85 + random()·0.3`. -/
def jitterOf (r2 : ℚ) : Frac := (fq 85 100).add ((Frac.ofRat r2).mul (fq 30 100))

/-- The computed character limit of `applyDynamicLengthAdjustment`: the
base limit under the sequence of multiplicative adjustments (a product,
as the source's sequential `charLimit *= …`).  `r1` decides
`shouldBeBrief`, `r2` the jitter. -/
def charLimitOf (responseText agentName : Str) (sig : Signals) (r1 r2 : ℚ) : Frac :=
  let messageLower := lowerStr sig.userMessage
  let wantsBrief := testWordAlts briefTerms messageLower
  let wantsDetailed := testWordAlts detailTerms messageLower
  let isQuestion := hasSub messageLower ['?']
  let isComplexTopic := testWordAlts complexTerms messageLower
  let turn := if sig.turn = 0 then 1 else sig.turn
  let isTechnical := isTechnicalText responseText
  let shouldBeBrief :=
    (Frac.ofRat r1).blt (briefChanceOf wantsBrief wantsDetailed isQuestion turn)
  (((baseLimitOf agentName).mul
      (mainFactor agentName wantsDetailed isComplexTopic sig.directlyAddressed turn
        isTechnical shouldBeBrief)).mul
    (techFactor agentName isTechnical)).mul (jitterOf r2)

/-- Line-break characters excluded by regex `.`. -/
def lineBreakChar (c : Char) : Bool := c = '\n' ∨ c = '\r'

/-- Index of the last sentence terminator of a line. -/
def lastTermIdx : Str → Option Nat
  | [] => none
  | c :: rest =>
    match lastTermIdx rest with
    | some k => some (k + 1)
    | none => if isTermChar c then some 0 else none

/-- `text.match(/.*[.!?]/)`: `.` does not cross line breaks, so the first
match is the first line containing a sentence terminator, taken from its
start through its last terminator. -/
def firstLineLastTerm (s : Str) : Option Str :=
  (splitCharsBy lineBreakChar s).findSome? (fun line =>
    (lastTermIdx line).map (fun k => line.take (k + 1)))

/-- The paragraph-preserving rebuild of the truncation's approach 2:
paragraphs that fit are kept whole; at the paragraph that would overflow,
when more than 80 characters remain, keep its content up to the last
complete sentence that fits, then stop. -/
def paraGo (L : Frac) : List Str → Str → Str
  | [], result => result
  | p :: rest, result =>
    if (Frac.ofNat (result ++ p).length).ble L then
      paraGo L rest (result ++ p ++ strL "\n\n")
    else
      let rem := L.sub (Frac.ofNat result.length)
      if (Frac.ofNat 80).blt rem then
        match firstLineLastTerm (p.take rem.floorNat) with
        | some ls => result ++ ls ++ strL "\n\n"
        | none => result
      else result

/-- `ResponseFormatter.applyDynamicLengthAdjustment`: when the text
exceeds the computed limit, first try the last complete sentence within
`substring(0, charLimit)` (accepted when longer than half the limit),
otherwise rebuild paragraph-by-paragraph; texts at or under the limit are
returned unchanged. -/
def applyDynamicLengthAdjustment (responseText agentName : Str) (sig : Signals)
    (r1 r2 : ℚ) : Str :=
  let charLimit := charLimitOf responseText agentName sig r1 r2
  if charLimit.blt (Frac.ofNat responseText.length) then
    let truncated := responseText.take charLimit.floorNat
    match firstLineLastTerm truncated with
    | some m =>
      if (charLimit.mul (fq 50 100)).blt (Frac.ofNat m.length) then trimStr m
      else trimStr (paraGo charLimit (splitOnSub (strL "\n\n") responseText) [])
    | none => trimStr (paraGo charLimit (splitOnSub (strL "\n\n") responseText) [])
  else responseText

/-- `ResponseFormatter.processResponse`: the cleanup pipeline followed by
the dynamic length governance. -/
def processResponse (responseText agentName : Str) (sig : Signals) (r1 r2 : ℚ) : Str :=
  applyDynamicLengthAdjustment (cleanupPhase agentName responseText) agentName sig r1 r2

/-- `processResponse` with an injected exception: `fault = some k` models
a throw at pipeline stage `k` (the stages before it run and their result
is discarded), after which the source's surrounding `try`/`catch` returns
the untouched `responseText` argument; `fault = none` is the normal path. -/
def processResponseWithFault (fault : Option Nat) (responseText agentName : Str)
    (sig : Signals) (r1 r2 : ℚ) : Str :=
  match fault with
  | none => processResponse responseText agentName sig r1 r2
  | some k =>
    let allSteps := cleanupSteps agentName ++
      [fun s => applyDynamicLengthAdjustment s agentName sig r1 r2]
    let _ := (allSteps.take k).foldl (fun s f => f s) responseText
    responseText

/-! ### Selector relationship reordering
(`AgentSelector.applyRelationshipBasedOrdering`, `chat-endpoint.ts`).
`selectAgents` invokes this step only when `context.turn > 1`; the
function itself re-checks `turn < 2` among its guards. -/

/-- The fixed persona→persona transition-likelihood table, keys in the
object-literal order. -/
def relationshipPatterns (lastAgent : Str) : Option (List (Str × Frac)) :=
  if lastAgent = strL "Analyst Alex" then
    some [(strL "Curious Clara", fq 75 100), (strL "Strategic Sam", fq 50 100)]
  else if lastAgent = strL "Curious Clara" then
    some [(strL "Strategic Sam", fq 80 100), (strL "Analyst Alex", fq 40 100)]
  else if lastAgent = strL "Strategic Sam" then
    some [(strL "Analyst Alex", fq 60 100), (strL "Curious Clara", fq 50 100)]
  else none

/-- The potential-follower loop: for each table entry in order, when the
follower is in the selected set, draw (`Math.random()` is reached only
after the `includes` check, so the draw index advances only then); on a
successful draw with a follower different from the last speaker, move the
follower to the front. -/
def followerLoop (baseOrder : List Str) (lastAgent : Str) (rng : Nat → ℚ) :
    List (Str × Frac) → Nat → List Str
  | [], _ => baseOrder
  | (follower, p) :: rest, i =>
    if follower ∈ baseOrder then
      if (Frac.ofRat (rng i)).blt p ∧ follower ≠ lastAgent then
        follower :: baseOrder.filter (fun a => a ≠ follower)
      else followerLoop baseOrder lastAgent rng rest (i + 1)
    else followerLoop baseOrder lastAgent rng rest i

/-- `AgentSelector.applyRelationshipBasedOrdering`: guards, the
`Math.random() > 0.6` skip check on the first draw, then the follower
loop over the table row of the last speaker. -/
def applyRelationshipBasedOrdering (baseOrder : List Str) (ctx : Ctx)
    (rng : Nat → ℚ) : List Str :=
  match ctx.lastAgent with
  | none => baseOrder
  | some lastAgent =>
    if baseOrder.length < 2 ∨ ctx.turn < 2 then baseOrder
    else if (fq 60 100).blt (Frac.ofRat (rng 0)) then baseOrder
    else
      match relationshipPatterns lastAgent with
      | none => baseOrder
      | some pats => followerLoop baseOrder lastAgent rng pats 1

/-! ### Turn orchestration (`ChatWorkflowManager.processMessage`) -/

/-- Outcome of one `generateText` call: a thrown rejection or a returned
text (a returned empty string is falsy and triggers the retry). -/
inductive GenOutcome : Type
  | threw
  | ret (text : Str)
deriving DecidableEq, Repr

/-- The per-persona fallback sentence after exhausted retries. -/
def fallbackText : Str := strL "I need more time to think about this."

/-- The bounded retry loop (`MAX_ATTEMPTS = 2`): attempt 1, a second
attempt while the result is falsy (null after a throw, or empty), then
the fallback when the final value is still falsy.  A thrown second
attempt leaves the first attempt's value in place. -/
def retryResult (o : Nat → GenOutcome) : Str :=
  match o 1 with
  | GenOutcome.ret s =>
    if s ≠ [] then s
    else
      match o 2 with
      | GenOutcome.ret t => if t ≠ [] then t else fallbackText
      | GenOutcome.threw => fallbackText
  | GenOutcome.threw =>
    match o 2 with
    | GenOutcome.ret t => if t ≠ [] then t else fallbackText
    | GenOutcome.threw => fallbackText

/-- The per-agent fallback after exhausted retries has run through the
formatter; `systemFallback` is the final whole-turn fallback. -/
def systemFallback : AgentResponse :=
  ⟨strL "System", strL "Our agents were unable to process your request. Please try again."⟩

/-- The sequential persona loop of `processMessage`: skip personas whose
runtime lacks a usable generation capability (`valid`), set
`context.lastAgent`, generate with retry (`oracle i a` is persona `i`'s
attempt `a`), normalise with the formatter (draws `rngs i`), and append
to both the transcript and the history. -/
def agentLoop (valid : Str → Bool) (oracle : Nat → Nat → GenOutcome)
    (rngs : Nat → ℚ × ℚ) :
    List Str → Nat → Ctx → List AgentResponse → List AgentResponse × Ctx
  | [], _, ctx, acc => (acc, ctx)
  | agentName :: rest, i, ctx, acc =>
    if valid agentName then
      let ctx1 := { ctx with
        lastAgent := (acc.getLast?).map (fun (r : AgentResponse) => r.agent) }
      let raw := retryResult (oracle i)
      let sig : Signals :=
        { turn := ctx1.turn, directlyAddressed := ctx1.directlyAddressed,
          userMessage := ctx1.userMessage.getD [] }
      let txt := processResponse raw agentName sig (rngs i).1 (rngs i).2
      agentLoop valid oracle rngs rest (i + 1)
        { ctx1 with
            messageHistory := ctx1.messageHistory ++ [⟨Role.assistant, txt, some agentName⟩] }
        (acc ++ [AgentResponse.mk agentName txt])
    else
      agentLoop valid oracle rngs rest (i + 1) ctx acc

/-- `ChatWorkflowManager.processMessage` on one session context: topic
handling, context update, history append, order resolution, the persona
loop, and the non-empty fallback.  The generation capability, the
formatter's random draws and `AgentSelector.selectAgents` are passed in
as oracles. -/
def processMessage (runtimesKeys : List Str) (valid : Str → Bool)
    (oracle : Nat → Nat → GenOutcome) (rngs : Nat → ℚ × ℚ)
    (selector : Str → List Str → Ctx → List Str)
    (message : Str) (ctx0 : Ctx) : List AgentResponse × Ctx :=
  let ctx1 := handleTopicChange message ctx0
  let ctx2 := { ctx1 with
    lastUserMessage := ctx1.userMessage
    userMessage := some message
    turn := ctx1.turn + 1
    messageHistory := ctx1.messageHistory ++ [⟨Role.user, message, none⟩] }
  let da := determineRespondingAgents runtimesKeys message ctx2 selector
  let ctx3 := if da.2 then { ctx2 with directlyAddressed := true } else ctx2
  let res := agentLoop valid oracle rngs da.1 0 ctx3 []
  let responses := if res.1 = [] then [systemFallback] else res.1
  (responses, res.2)

/-! ### Turn-request interface (`setupMultiAgentChatEndpoint`) -/

/-- The response payload of the `/multi-agent-chat` handler: HTTP status
and the `error` / `details` / `conversation` fields actually serialised. -/
structure EndpointResp : Type where
  status : Nat
  error : Option Str
  details : Option Str
  conversation : Option (List AgentResponse)
deriving DecidableEq, Repr

/-- How the awaited `chatManager.processMessage` call ended. -/
inductive ProcessOutcome : Type
  | ok (responses : List AgentResponse)
  | threw (message : Str)
deriving DecidableEq, Repr

/-- The InvalidInput rejection for a falsy `message` field: status 400,
`error` and `details` only — no `conversation` field is serialised. -/
def invalidInputResponse : EndpointResp :=
  { status := 400, error := some (strL "Message is required"),
    details := some (strL "The request must include a message to process"),
    conversation := none }

/-- The main request handler: reject a falsy message, else dispatch on
the processing outcome (error payload with a single system apology entry,
the empty-conversation apology, or the success payload). -/
def handleChatRequest (message : Option Str) (outcome : ProcessOutcome) : EndpointResp :=
  match message with
  | none => invalidInputResponse
  | some m =>
    if m = [] then invalidInputResponse
    else
      match outcome with
      | ProcessOutcome.threw e =>
        { status := 500, error := some (strL "Message processing failed"),
          details := some e,
          conversation := some [⟨strL "System",
            strL "An error occurred while processing your request. Please try again later."⟩] }
      | ProcessOutcome.ok rs =>
        if rs = [] then
          { status := 200, error := none, details := none,
            conversation := some [⟨strL "System",
              strL "Our agents are taking a break. Please try again."⟩] }
        else
          { status := 200, error := none, details := none, conversation := some rs }

/-- The 45-second whole-turn timeout payload. -/
def timeoutResponse : EndpointResp :=
  { status := 504, error := some (strL "Request timed out"), details := none,
    conversation := some [⟨strL "System",
      strL "The request took too long to process. Please try again later."⟩] }

/-- The outer catch-all payload. -/
def unexpectedErrorResponse (e : Str) : EndpointResp :=
  { status := 500, error := some (strL "Unexpected server error"), details := some e,
    conversation := some [⟨strL "System",
      strL "An unexpected error occurred. Our team has been notified."⟩] }

/-! ### Auxiliary values for the statements -/

/-- The rational one half, written as a raw structure so the kernel can
evaluate comparisons against it (the quotient form does not reduce). -/
def qHalf : ℚ := ⟨1, 2, by norm_num, Nat.coprime_one_left 2⟩

/-- Does the text end at a sentence terminator? -/
def endsWithTerm (s : Str) : Bool :=
  match s.getLast? with
  | some c => isTermChar c
  | none => false

/-! ## Theorems

First the bridge between `Frac` and `ℚ`, then general lemmas about the
embedded functions, then one theorem per claim (with its witness or
counterexample). -/

theorem Frac.toRat_ofNat (n : Nat) : (Frac.ofNat n).toRat = (n : ℚ) := by
  simp [Frac.ofNat, Frac.toRat]

theorem Frac.toRat_ofRat (q : ℚ) : (Frac.ofRat q).toRat = q := by
  simp [Frac.ofRat, Frac.toRat, Rat.num_div_den]

theorem Frac.toRat_mul {a b : Frac} : (a.mul b).toRat = a.toRat * b.toRat := by
  simp only [Frac.mul, Frac.toRat, Int.cast_mul]
  rw [div_mul_div_comm]

theorem Frac.toRat_add {a b : Frac} (ha : a.den ≠ 0) (hb : b.den ≠ 0) :
    (a.add b).toRat = a.toRat + b.toRat := by
  have ha' : (a.den : ℚ) ≠ 0 := Int.cast_ne_zero.mpr ha
  have hb' : (b.den : ℚ) ≠ 0 := Int.cast_ne_zero.mpr hb
  field_simp [Frac.add, Frac.toRat]
  try ring

theorem Frac.toRat_sub {a b : Frac} (ha : a.den ≠ 0) (hb : b.den ≠ 0) :
    (a.sub b).toRat = a.toRat - b.toRat := by
  have ha' : (a.den : ℚ) ≠ 0 := Int.cast_ne_zero.mpr ha
  have hb' : (b.den : ℚ) ≠ 0 := Int.cast_ne_zero.mpr hb
  field_simp [Frac.sub, Frac.toRat]
  try ring

theorem Frac.blt_iff {a b : Frac} (ha : 0 < a.den) (hb : 0 < b.den) :
    a.blt b = true ↔ a.toRat < b.toRat := by
  have ha' : (0 : ℚ) < (a.den : ℚ) := by exact_mod_cast ha
  have hb' : (0 : ℚ) < (b.den : ℚ) := by exact_mod_cast hb
  simp only [Frac.blt, Frac.toRat, decide_eq_true_eq]
  rw [div_lt_div_iff₀ ha' hb']
  constructor
  · intro h
    exact_mod_cast h
  · intro h
    exact_mod_cast h

theorem Frac.ble_iff {a b : Frac} (ha : 0 < a.den) (hb : 0 < b.den) :
    a.ble b = true ↔ a.toRat ≤ b.toRat := by
  have ha' : (0 : ℚ) < (a.den : ℚ) := by exact_mod_cast ha
  have hb' : (0 : ℚ) < (b.den : ℚ) := by exact_mod_cast hb
  simp only [Frac.ble, Frac.toRat, decide_eq_true_eq]
  rw [div_le_div_iff₀ ha' hb']
  constructor
  · intro h
    exact_mod_cast h
  · intro h
    exact_mod_cast h

theorem Frac.den_pos_mul {a b : Frac} (ha : 0 < a.den) (hb : 0 < b.den) :
    0 < (a.mul b).den := Int.mul_pos ha hb

theorem Frac.den_pos_add {a b : Frac} (ha : 0 < a.den) (hb : 0 < b.den) :
    0 < (a.add b).den := Int.mul_pos ha hb

theorem Frac.den_pos_sub {a b : Frac} (ha : 0 < a.den) (hb : 0 < b.den) :
    0 < (a.sub b).den := Int.mul_pos ha hb

theorem Frac.den_pos_ofRat (q : ℚ) : 0 < (Frac.ofRat q).den := by
  simp [Frac.ofRat]
  exact_mod_cast q.den_pos

theorem qHalf_eq : qHalf = 1 / 2 := by
  rw [qHalf, Rat.mk'_eq_divInt, Rat.divInt_eq_div]
  norm_num

theorem Frac.blt_eq_false_iff {a b : Frac} (ha : 0 < a.den) (hb : 0 < b.den) :
    a.blt b = false ↔ ¬ (a.toRat < b.toRat) := by
  rw [← Frac.blt_iff ha hb]
  cases a.blt b <;> simp

theorem Frac.ble_eq_false_iff {a b : Frac} (ha : 0 < a.den) (hb : 0 < b.den) :
    a.ble b = false ↔ ¬ (a.toRat ≤ b.toRat) := by
  rw [← Frac.ble_iff ha hb]
  cases a.ble b <;> simp

/-! ### Order-resolution lemmas (for C1 and C9) -/

theorem getDirectly_nil (m : Str) : getDirectlyAddressedAgents m [] = [] := rfl

/-- The inner single-addressee condition of `determineRespondingAgents`
selects between two branches that both return the addressed set, so the
function agrees with the version without the condition. -/
theorem determine_eq_noSingleCheck (rk : List Str) (m : Str) (c : Ctx)
    (sel : Str → List Str → Ctx → List Str) :
    determineRespondingAgents rk m c sel = determineRespondingAgentsNoSingleCheck rk m c sel := by
  unfold determineRespondingAgents determineRespondingAgentsNoSingleCheck
  dsimp only
  split_ifs <;> rfl

/-- When the coarse addressing check finds anybody, the addressed set is
the returned order and the `directlyAddressed` flag is set. -/
theorem determine_addressed_eq (rk : List Str) (m : Str) (c : Ctx)
    (sel : Str → List Str → Ctx → List Str)
    (h : getDirectlyAddressedAgents m (availableAgentsOf rk) ≠ []) :
    determineRespondingAgents rk m c sel =
      (getDirectlyAddressedAgents m (availableAgentsOf rk), true) := by
  have havail : ¬ (availableAgentsOf rk = []) := by
    intro he
    apply h
    rw [he]
    exact getDirectly_nil m
  rw [determine_eq_noSingleCheck]
  unfold determineRespondingAgentsNoSingleCheck
  simp only [if_neg havail, if_pos h]

/-! ### The claims -/

/-- C1: for any roster and any message in which the orchestrator's coarse
addressing check finds exactly one directly addressed persona, and which
contains neither "everyone" nor "all", `processMessage`'s speaking order
is exactly that persona: `determineRespondingAgents` returns the
singleton for every selector, so `AgentSelector.selectAgents` is never
consulted — regardless of any topical-override keyword in the message
(those live inside the never-invoked selector). -/
theorem C1_direct_address_precedence (rk : List Str) (m : Str) (c : Ctx) (a : Str)
    (h1 : getDirectlyAddressedAgents m (availableAgentsOf rk) = [a])
    (h2 : hasSub (lowerStr m) (strL "everyone") = false)
    (h3 : hasSub (lowerStr m) (strL "all") = false) :
    ∀ sel, (determineRespondingAgents rk m c sel).1 = [a] := by
  intro sel
  rw [determine_addressed_eq rk m c sel (by rw [h1]; exact List.cons_ne_nil a [])]
  exact h1

/-- Witness for C1: roster of all three personas, message
`"Alex, is crypto worth it?"` (containing the topical-override keyword
`crypto`), and a selector that would return everything — the order is
still exactly Analyst Alex. -/
theorem C1_direct_address_precedence_witness :
    getDirectlyAddressedAgents (strL "Alex, is crypto worth it?")
        (availableAgentsOf defaultAgentSequence) = [strL "Analyst Alex"] ∧
    hasSub (lowerStr (strL "Alex, is crypto worth it?")) (strL "everyone") = false ∧
    hasSub (lowerStr (strL "Alex, is crypto worth it?")) (strL "all") = false ∧
    (determineRespondingAgents defaultAgentSequence (strL "Alex, is crypto worth it?")
        freshCtx (fun _ avail _ => avail)).1 = [strL "Analyst Alex"] :=
  ⟨by decide, by decide, by decide,
   C1_direct_address_precedence defaultAgentSequence _ freshCtx _
     (by decide) (by decide) (by decide) (fun _ avail _ => avail)⟩

/-- C9: whenever the coarse addressing check finds a non-empty set,
`determineRespondingAgents` returns exactly that addressed set (in roster
order, as `getDirectlyAddressedAgents` filters the roster); the
single-addressee/"everyone"/"all" condition selects between two branches
that return the same value, so the function equals the variant with the
condition removed, on every input. -/
theorem C9_determine_refinement :
    (∀ rk m c sel, determineRespondingAgents rk m c sel
        = determineRespondingAgentsNoSingleCheck rk m c sel) ∧
    (∀ rk m c sel, getDirectlyAddressedAgents m (availableAgentsOf rk) ≠ [] →
        (determineRespondingAgents rk m c sel).1
          = getDirectlyAddressedAgents m (availableAgentsOf rk)) :=
  ⟨determine_eq_noSingleCheck,
   fun rk m c sel h => by rw [determine_addressed_eq rk m c sel h]⟩

/-- Witness for C9: a two-addressee message, where the inner condition's
else-branch is the one taken, still returns the addressed pair. -/
theorem C9_determine_refinement_witness :
    getDirectlyAddressedAgents (strL "Alex, Clara, please weigh in")
        (availableAgentsOf defaultAgentSequence) ≠ [] ∧
    (determineRespondingAgents defaultAgentSequence (strL "Alex, Clara, please weigh in")
        freshCtx (fun _ _ _ => [])).1
      = getDirectlyAddressedAgents (strL "Alex, Clara, please weigh in")
          (availableAgentsOf defaultAgentSequence) :=
  ⟨by decide,
   C9_determine_refinement.2 defaultAgentSequence _ freshCtx (fun _ _ _ => []) (by decide)⟩

/-- C2 (code bug): in a session whose immediately previous user message
is `"What's the weather today?"`, processing
`"Let's plan the quarterly budget allocation strategy"` appends no
`"--- Topic change ---"` system entry at all: `handleTopicChange` runs
before the turn's context update and reads `lastUserMessage`, which at
that moment still holds the message before the previous one (undefined on
the second turn) — even though `isNewTopic` applied to the two messages,
as the claim and `isNewTopic`'s own documentation intend, detects the
change.  The trace below checks the full two-turn history: exactly the
two user entries, no system marker. -/
theorem C2_topic_change_off_by_one :
    isNewTopic (strL "Let's plan the quarterly budget allocation strategy")
        (strL "What's the weather today?") = true ∧
    (let s1 := processMessage [] (fun _ => false) (fun _ _ => GenOutcome.threw)
        (fun _ => (0, 0)) (fun _ _ _ => []) (strL "What's the weather today?") freshCtx
     s1.2.userMessage = some (strL "What's the weather today?") ∧
     (let s2 := processMessage [] (fun _ => false) (fun _ _ => GenOutcome.threw)
          (fun _ => (0, 0)) (fun _ _ _ => [])
          (strL "Let's plan the quarterly budget allocation strategy") s1.2
      s2.2.messageHistory =
        [⟨Role.user, strL "What's the weather today?", none⟩,
         ⟨Role.user, strL "Let's plan the quarterly budget allocation strategy", none⟩])) := by
  exact ⟨by decide, by decide, by decide⟩

/-- C3: whatever the roster, selector, formatter draws and session state,
if every generation attempt throws, `processMessage` still returns a
conversation list of length at least 1: each valid persona contributes a
formatted fallback entry, and an empty transcript is replaced by the
system apology entry. -/
theorem C3_nonempty_guarantee (rk : List Str) (valid : Str → Bool)
    (oracle : Nat → Nat → GenOutcome) (rngs : Nat → ℚ × ℚ)
    (sel : Str → List Str → Ctx → List Str) (m : Str) (c : Ctx)
    (h : ∀ i a, oracle i a = GenOutcome.threw) :
    1 ≤ (processMessage rk valid oracle rngs sel m c).1.length := by
  simp only [processMessage]
  split_ifs <;>
    first
      | simp
      | (apply List.length_pos.mpr
         assumption)

/-- Witness for C3: an all-throwing oracle over the full roster. -/
theorem C3_nonempty_guarantee_witness :
    (∀ i a, (fun (_ _ : Nat) => GenOutcome.threw) i a = GenOutcome.threw) ∧
    1 ≤ (processMessage defaultAgentSequence (fun _ => true)
        (fun _ _ => GenOutcome.threw) (fun _ => (0, 0)) (fun _ avail _ => avail)
        (strL "hello there") freshCtx).1.length :=
  ⟨fun _ _ => rfl,
   C3_nonempty_guarantee defaultAgentSequence (fun _ => true) _ (fun _ => (0, 0))
     (fun _ avail _ => avail) (strL "hello there") freshCtx (fun _ _ => rfl)⟩

/-- C10: if any stage of `ResponseFormatter.processResponse` throws, the
surrounding catch returns the original raw `responseText` unchanged (not
the partially processed value), and no error propagates; without a fault
the function computes the normal pipeline result.  A thrown stage is
modelled by the fault index `k`: the stages before it run, their result
is discarded by the catch. -/
theorem C10_formatter_catch_returns_original (raw agentName : Str) (sig : Signals)
    (r1 r2 : ℚ) (k : Nat) :
    processResponseWithFault (some k) raw agentName sig r1 r2 = raw ∧
    processResponseWithFault none raw agentName sig r1 r2
      = processResponse raw agentName sig r1 r2 :=
  ⟨rfl, rfl⟩

/-- C8 (counterexample): the InvalidInput rejection for a request missing
the `message` field is an error response with no `conversation` field at
all — the claim's "every error response carries a conversation array"
fails exactly there. -/
theorem C8_invalid_input_counterexample :
    (handleChatRequest none (ProcessOutcome.ok [])).conversation = none ∧
    (handleChatRequest none (ProcessOutcome.ok [])).status = 400 ∧
    (handleChatRequest none (ProcessOutcome.ok [])).error
      = some (strL "Message is required") := by
  exact ⟨rfl, rfl, rfl⟩

/-- C8 (amended): every error response of the turn-request interface
other than the InvalidInput rejection — processing failure, empty
conversation, whole-turn timeout, unexpected error — carries a
conversation array with exactly one system-authored apology entry; the
InvalidInput rejection (missing or empty message) carries only `error`
and `details` and no conversation array. -/
theorem C8_error_conversation_amended (m e : Str) (rs : List AgentResponse)
    (hm : m ≠ []) :
    ((handleChatRequest (some m) (ProcessOutcome.threw e)).conversation.map List.length
        = some 1 ∧
      (handleChatRequest (some m) (ProcessOutcome.threw e)).conversation.map
          (fun l => l.map (fun r => r.agent)) = some [strL "System"]) ∧
    ((handleChatRequest (some m) (ProcessOutcome.ok [])).conversation.map List.length
        = some 1 ∧
      (handleChatRequest (some m) (ProcessOutcome.ok [])).conversation.map
          (fun l => l.map (fun r => r.agent)) = some [strL "System"]) ∧
    (timeoutResponse.conversation.map List.length = some 1 ∧
      timeoutResponse.conversation.map (fun l => l.map (fun r => r.agent))
        = some [strL "System"]) ∧
    ((unexpectedErrorResponse e).conversation.map List.length = some 1 ∧
      (unexpectedErrorResponse e).conversation.map (fun l => l.map (fun r => r.agent))
        = some [strL "System"]) ∧
    (handleChatRequest none (ProcessOutcome.ok rs) = invalidInputResponse ∧
      invalidInputResponse.conversation = none) := by
  refine ⟨⟨?_, ?_⟩, ⟨?_, ?_⟩, ⟨rfl, rfl⟩, ⟨rfl, rfl⟩, ⟨rfl, rfl⟩⟩ <;>
    simp [handleChatRequest, hm]

/-- Witness for C8's amended claim at a concrete request. -/
theorem C8_error_conversation_amended_witness :
    (strL "hi" ≠ []) ∧
    (handleChatRequest (some (strL "hi")) (ProcessOutcome.threw (strL "boom"))).conversation.map
        List.length = some 1 :=
  ⟨by decide,
   ((C8_error_conversation_amended (strL "hi") (strL "boom") [] (by decide)).1).1⟩

/-! ### Relationship-reordering lemmas (for C5) -/

/-- The follower loop either leaves the order alone or moves a
table-named follower that is present in the selected set to the front. -/
theorem followerLoop_spec (base : List Str) (la : Str) (rng : Nat → ℚ) :
    ∀ (pats : List (Str × Frac)) (i : Nat),
      followerLoop base la rng pats i = base ∨
      ∃ f p, (f, p) ∈ pats ∧ f ∈ base ∧
        followerLoop base la rng pats i = f :: base.filter (fun a => a ≠ f) := by
  intro pats
  induction pats with
  | nil => intro i; left; rfl
  | cons hd tl ih =>
    intro i
    obtain ⟨f, p⟩ := hd
    unfold followerLoop
    by_cases hmem : f ∈ base
    · rw [if_pos hmem]
      by_cases hcond : (Frac.ofRat (rng i)).blt p = true ∧ f ≠ la
      · right
        exact ⟨f, p, by simp, hmem, by rw [if_pos hcond]⟩
      · rw [if_neg hcond]
        rcases ih (i + 1) with h | ⟨g, q, hin, hgb, heq⟩
        · left; exact h
        · right; exact ⟨g, q, by simp [hin], hgb, heq⟩
    · rw [if_neg hmem]
      rcases ih i with h | ⟨g, q, hin, hgb, heq⟩
      · left; exact h
      · right; exact ⟨g, q, by simp [hin], hgb, heq⟩

theorem fq60_toRat : (fq 60 100).toRat = 3 / 5 := by
  norm_num [fq, Frac.toRat]

/-- The skip check `Math.random() > 0.6` fires exactly when the first
draw exceeds `3/5`. -/
theorem skip_check_iff (q : ℚ) :
    ((fq 60 100).blt (Frac.ofRat q) = true) ↔ (3 / 5 : ℚ) < q := by
  rw [Frac.blt_iff (by norm_num [fq]) (Frac.den_pos_ofRat q), Frac.toRat_ofRat, fq60_toRat]

/-- C5 (corrected claim refuted): the claim says the transition table is
consulted with probability 40%, i.e. only when the uniform draw falls in
the lower-2/5 region.  With first draw `1/2` — outside that region, and
inside the code's actual consult region `[0, 3/5]` — the code consults
the table and moves Strategic Sam (Curious Clara's table follower,
present in the selected set) to the front. -/
theorem C5_consult_probability_counterexample :
    applyRelationshipBasedOrdering [strL "Analyst Alex", strL "Strategic Sam"]
        { turn := 2, lastAgent := some (strL "Curious Clara") }
        (fun i => if i = 0 then qHalf else 0)
      = [strL "Strategic Sam", strL "Analyst Alex"] ∧
    ((2 : ℚ) / 5 < qHalf ∧ qHalf ≤ 3 / 5) ∧
    [strL "Strategic Sam", strL "Analyst Alex"] ≠ [strL "Analyst Alex", strL "Strategic Sam"] := by
  refine ⟨by decide, ⟨?_, ?_⟩, by decide⟩ <;> rw [qHalf_eq] <;> norm_num

/-- C5 (amended): in the selector's relationship-reordering step, when
`turn ≥ 2`, `lastAgent` is set and at least two personas are selected,
the transition-likelihood table is consulted with probability 60% — the
step is skipped exactly when the first draw exceeds `3/5`, so the skip
region of the unit interval is `(3/5, 1)` (probability 40%) and the
consult region `[0, 3/5]` (probability 60%); only when consulted, and
only for a follower the table names that is present in the selected set
(and passes its own per-follower draw), is that follower moved to the
front. -/
theorem C5_relationship_reordering_amended (base : List Str) (ctx : Ctx) (rng : Nat → ℚ)
    (la : Str) (pats : List (Str × Frac))
    (hla : ctx.lastAgent = some la)
    (hlen : 2 ≤ base.length)
    (hturn : 2 ≤ ctx.turn)
    (hpats : relationshipPatterns la = some pats) :
    ((3 / 5 : ℚ) < rng 0 → applyRelationshipBasedOrdering base ctx rng = base) ∧
    (rng 0 ≤ 3 / 5 →
      applyRelationshipBasedOrdering base ctx rng = followerLoop base la rng pats 1) ∧
    (followerLoop base la rng pats 1 = base ∨
      ∃ f p, (f, p) ∈ pats ∧ f ∈ base ∧
        followerLoop base la rng pats 1 = f :: base.filter (fun a => a ≠ f)) ∧
    {q : ℚ | 0 ≤ q ∧ q < 1 ∧ ¬ ((3 / 5 : ℚ) < q)} = Set.Icc (0 : ℚ) (3 / 5) := by
  have hg : ¬ (base.length < 2 ∨ ctx.turn < 2) := by omega
  refine ⟨?_, ?_, followerLoop_spec base la rng pats 1, ?_⟩
  · intro hgt
    unfold applyRelationshipBasedOrdering
    rw [hla]
    simp only [if_neg hg, if_pos ((skip_check_iff (rng 0)).mpr hgt)]
  · intro hle
    unfold applyRelationshipBasedOrdering
    rw [hla]
    simp only [if_neg hg,
      if_neg ((skip_check_iff (rng 0)).not.mpr (not_lt.mpr hle)), hpats]
  · ext q
    simp only [Set.mem_setOf_eq, Set.mem_Icc]
    constructor
    · rintro ⟨h0, _, h3⟩
      exact ⟨h0, le_of_not_lt h3⟩
    · rintro ⟨h0, h3⟩
      exact ⟨h0, lt_of_le_of_lt h3 (by norm_num), not_lt.mpr h3⟩

/-- Witness for C5's amended claim: Curious Clara spoke last, the draw
`1/2` is in the consult region, and the step reduces to the follower
loop over Clara's table row. -/
theorem C5_relationship_reordering_amended_witness :
    (({ turn := 2, lastAgent := some (strL "Curious Clara") } : Ctx).lastAgent
        = some (strL "Curious Clara")) ∧
    relationshipPatterns (strL "Curious Clara")
      = some [(strL "Strategic Sam", fq 80 100), (strL "Analyst Alex", fq 40 100)] ∧
    ((fun i => if i = 0 then qHalf else (0 : ℚ)) 0 ≤ 3 / 5 →
      applyRelationshipBasedOrdering [strL "Analyst Alex", strL "Strategic Sam"]
          { turn := 2, lastAgent := some (strL "Curious Clara") }
          (fun i => if i = 0 then qHalf else 0)
        = followerLoop [strL "Analyst Alex", strL "Strategic Sam"] (strL "Curious Clara")
            (fun i => if i = 0 then qHalf else 0)
            [(strL "Strategic Sam", fq 80 100), (strL "Analyst Alex", fq 40 100)] 1) :=
  ⟨rfl, by decide,
   (C5_relationship_reordering_amended [strL "Analyst Alex", strL "Strategic Sam"]
      { turn := 2, lastAgent := some (strL "Curious Clara") }
      (fun i => if i = 0 then qHalf else 0)
      (strL "Curious Clara") _ rfl (by decide) (by decide) (by decide)).2.1⟩

/-! ### Character-limit bounds (for C4, C6 and C7) -/

theorem baseLimit_den_pos (a : Str) : 0 < (baseLimitOf a).den := by
  unfold baseLimitOf
  split_ifs <;> norm_num [Frac.ofNat]

theorem mainFactor_den_pos (a : Str) (w c d : Bool) (t : Nat) (tech brief : Bool) :
    0 < (mainFactor a w c d t tech brief).den := by
  unfold mainFactor
  split_ifs <;> norm_num [fq]

theorem techFactor_den_pos (a : Str) (tech : Bool) : 0 < (techFactor a tech).den := by
  unfold techFactor
  split_ifs <;> norm_num [fq]

theorem jitter_den_pos (r2 : ℚ) : 0 < (jitterOf r2).den := by
  unfold jitterOf
  exact Frac.den_pos_add (by norm_num [fq])
    (Frac.den_pos_mul (Frac.den_pos_ofRat r2) (by norm_num [fq]))

theorem charLimit_den_pos (text a : Str) (sig : Signals) (r1 r2 : ℚ) :
    0 < (charLimitOf text a sig r1 r2).den := by
  unfold charLimitOf
  dsimp only
  exact Frac.den_pos_mul
    (Frac.den_pos_mul
      (Frac.den_pos_mul (baseLimit_den_pos a) (mainFactor_den_pos a _ _ _ _ _ _))
      (techFactor_den_pos a _))
    (jitter_den_pos r2)

/-- With technical content absent, the main factor stays within
`[1/2, 13/10]` (the `1.4` branch needs technical content). -/
theorem mainFactor_bounds (a : Str) (w c d : Bool) (t : Nat) (brief : Bool) :
    1 / 2 ≤ (mainFactor a w c d t false brief).toRat ∧
    (mainFactor a w c d t false brief).toRat ≤ 13 / 10 := by
  unfold mainFactor
  split_ifs with h1 h2 h3 h4 h5 h6 h7 <;>
    first
      | exact absurd (And.right ‹_ ∧ False›) not_false
      | (constructor <;> norm_num [fq, Frac.toRat])

theorem techFactor_false (a : Str) : techFactor a false = fq 1 1 := rfl

theorem fq_one_toRat : (fq 1 1).toRat = 1 := by norm_num [fq, Frac.toRat]

theorem jitter_toRat (r2 : ℚ) : (jitterOf r2).toRat = 85 / 100 + r2 * (30 / 100) := by
  have hb : 0 < ((Frac.ofRat r2).mul (fq 30 100)).den :=
    Frac.den_pos_mul (Frac.den_pos_ofRat r2) (by norm_num [fq])
  unfold jitterOf
  rw [Frac.toRat_add (by norm_num [fq]) hb.ne', Frac.toRat_mul, Frac.toRat_ofRat]
  norm_num [fq, Frac.toRat]

theorem jitter_bounds (r2 : ℚ) (h0 : 0 ≤ r2) (h1 : r2 < 1) :
    17 / 20 ≤ (jitterOf r2).toRat ∧ (jitterOf r2).toRat < 23 / 20 := by
  rw [jitter_toRat]
  constructor <;> nlinarith

theorem baseLimit_toRat_bounds (a : Str) :
    450 ≤ (baseLimitOf a).toRat ∧ (baseLimitOf a).toRat ≤ 1200 := by
  unfold baseLimitOf
  split_ifs <;> norm_num [Frac.ofNat, Frac.toRat]

/-- Without technical content the computed limit is the product of the
base limit, a technical-free main factor, the unit bonus and the jitter. -/
theorem charLimit_shape (text a : Str) (sig : Signals) (r1 r2 : ℚ)
    (htech : isTechnicalText text = false) :
    ∃ w c d t brief, charLimitOf text a sig r1 r2
      = (((baseLimitOf a).mul (mainFactor a w c d t false brief)).mul (fq 1 1)).mul
          (jitterOf r2) := by
  unfold charLimitOf
  simp only [htech]
  exact ⟨_, _, _, _, _, rfl⟩

/-- Computed-limit bounds: with no technical content in the response and
a jitter draw in `[0, 1)`, the limit lies in
`[17/40 · B, 299/200 · B)` for base limit `B`. -/
theorem charLimit_bounds (text a : Str) (sig : Signals) (r1 r2 : ℚ)
    (htech : isTechnicalText text = false) (h0 : 0 ≤ r2) (h1 : r2 < 1) :
    (17 / 40) * (baseLimitOf a).toRat ≤ (charLimitOf text a sig r1 r2).toRat ∧
    (charLimitOf text a sig r1 r2).toRat < (299 / 200) * (baseLimitOf a).toRat := by
  obtain ⟨w, c, d, t, brief, hshape⟩ := charLimit_shape text a sig r1 r2 htech
  rw [hshape, Frac.toRat_mul, Frac.toRat_mul, Frac.toRat_mul, fq_one_toRat, mul_one]
  have hB := baseLimit_toRat_bounds a
  have hf := mainFactor_bounds a w c d t brief
  have hj := jitter_bounds r2 h0 h1
  have hBpos : (0 : ℚ) < (baseLimitOf a).toRat := by linarith
  have hfpos : (0 : ℚ) ≤ (mainFactor a w c d t false brief).toRat := by linarith
  have hjpos : (0 : ℚ) ≤ (jitterOf r2).toRat := by linarith
  constructor
  · nlinarith [mul_le_mul hf.1 hj.1 (by norm_num) hfpos,
      mul_le_mul_of_nonneg_left
        (mul_le_mul hf.1 hj.1 (by norm_num) hfpos : (1 / 2 : ℚ) * (17 / 20) ≤ _)
        hBpos.le]
  · nlinarith [mul_le_mul_of_nonneg_right hf.2 hjpos,
      mul_lt_mul_of_pos_left hj.2 (by norm_num : (0 : ℚ) < 13 / 10),
      hBpos, hB.2]

/-- Texts at or under the computed limit pass the length governance
unchanged. -/
theorem lengthAdjust_noTrunc (text a : Str) (sig : Signals) (r1 r2 : ℚ)
    (h : (charLimitOf text a sig r1 r2).blt (Frac.ofNat text.length) = false) :
    applyDynamicLengthAdjustment text a sig r1 r2 = text := by
  unfold applyDynamicLengthAdjustment
  dsimp only
  rw [h]
  simp

/-- The length-governance branch test is false whenever the text fits
under the lower bound of the limit. -/
theorem charLimit_blt_false (text a : Str) (sig : Signals) (r1 r2 : ℚ)
    (htech : isTechnicalText text = false) (h0 : 0 ≤ r2) (h1 : r2 < 1)
    (hn : ((text.length : ℚ)) ≤ (17 / 40) * (baseLimitOf a).toRat) :
    (charLimitOf text a sig r1 r2).blt (Frac.ofNat text.length) = false := by
  rw [Frac.blt_eq_false_iff (charLimit_den_pos text a sig r1 r2) (by norm_num [Frac.ofNat]),
    Frac.toRat_ofNat]
  exact not_lt.mpr (le_trans hn (charLimit_bounds text a sig r1 r2 htech h0 h1).1)

/-- A text the cleanup pipeline leaves unchanged and that fits under the
drawn budget is a fixed point of the whole normalizer. -/
theorem processResponse_fixed (t a : Str) (sig : Signals) (r1 r2 : ℚ)
    (hclean : cleanupPhase a t = t)
    (hlen : (charLimitOf t a sig r1 r2).blt (Frac.ofNat t.length) = false) :
    processResponse t a sig r1 r2 = t := by
  unfold processResponse
  rw [hclean]
  exact lengthAdjust_noTrunc t a sig r1 r2 hlen

/-- C7 (corrected claim refuted): normalizing
`"(smiles) I think this is important."` for Analyst Alex removes the
parenthetical but leaves the space that followed it, so the output does
NOT begin with `"I think this is important."` — it begins with a space. -/
theorem C7_parenthetical_counterexample :
    (processResponse (strL "(smiles) I think this is important.") (strL "Analyst Alex")
        { turn := 1 } 0 0 = strL " I think this is important.") ∧
    hasSub (processResponse (strL "(smiles) I think this is important.") (strL "Analyst Alex")
        { turn := 1 } 0 0) ['('] = false ∧
    hasSub (processResponse (strL "(smiles) I think this is important.") (strL "Analyst Alex")
        { turn := 1 } 0 0) [')'] = false ∧
    (strL "I think this is important.").isPrefixOf
        (processResponse (strL "(smiles) I think this is important.") (strL "Analyst Alex")
          { turn := 1 } 0 0) = false := by
  exact ⟨by decide, by decide, by decide, by decide⟩

/-- C7 (amended): for every context signal set and draws with a
non-negative jitter draw below 1, normalizing
`"(smiles) I think this is important."` for Analyst Alex yields exactly
`" I think this is important."`: no parentheses survive, and after
trimming the leading space the text begins with
`"I think this is important."`. -/
theorem C7_parenthetical_amended (sig : Signals) (r1 r2 : ℚ) (h0 : 0 ≤ r2) (h1 : r2 < 1) :
    processResponse (strL "(smiles) I think this is important.") (strL "Analyst Alex") sig r1 r2
      = strL " I think this is important." ∧
    hasSub (strL " I think this is important.") ['('] = false ∧
    hasSub (strL " I think this is important.") [')'] = false ∧
    (strL "I think this is important.").isPrefixOf
        (trimStr (strL " I think this is important.")) = true := by
  refine ⟨?_, by decide, by decide, by decide⟩
  unfold processResponse
  have hclean : cleanupPhase (strL "Analyst Alex") (strL "(smiles) I think this is important.")
      = strL " I think this is important." := by decide
  rw [hclean]
  apply lengthAdjust_noTrunc
  apply charLimit_blt_false _ _ sig r1 r2 (by decide) h0 h1
  have hB : baseLimitOf (strL "Analyst Alex") = Frac.ofNat 1200 := by decide
  have hlen : (strL " I think this is important.").length = 27 := by decide
  rw [hB, hlen, Frac.toRat_ofNat]
  norm_num

/-- Witness for C7's amended claim at concrete draws. -/
theorem C7_parenthetical_amended_witness :
    ((0 : ℚ) ≤ 0 ∧ (0 : ℚ) < 1) ∧
    processResponse (strL "(smiles) I think this is important.") (strL "Analyst Alex")
        { turn := 1 } 0 0 = strL " I think this is important." :=
  ⟨⟨by norm_num, by norm_num⟩,
   (C7_parenthetical_amended { turn := 1 } 0 0 (by norm_num) (by norm_num)).1⟩

/-- C4 (corrected claim refuted): the text `"But However this works."`
contains no parentheticals, no disclaimer preamble and no third-person
self-reference (the relevant pipeline stages leave it unchanged), yet the
normalizer is not idempotent on it: the first pass strips the dangling
`"But "` — exposing `"However"`, which only the second pass strips — so
`normalize(normalize(t)) ≠ normalize(t)`. -/
theorem C4_normalizer_not_idempotent :
    (processResponse (processResponse (strL "But However this works.") (strL "Analyst Alex")
          { turn := 1 } 0 0) (strL "Analyst Alex") { turn := 1 } 0 0
      ≠ processResponse (strL "But However this works.") (strL "Analyst Alex")
          { turn := 1 } 0 0) ∧
    hasSub (strL "But However this works.") ['('] = false ∧
    hasSub (strL "But However this works.") [')'] = false ∧
    stripAIDisclaimers (strL "But However this works.") = strL "But However this works." ∧
    removeParens (strL "But However this works.") = strL "But However this works." ∧
    replaceSelfRefs (strL "Analyst Alex") (strL "Alex") (strL "But However this works.")
      = strL "But However this works." := by
  exact ⟨by decide, by decide, by decide, by decide, by decide, by decide⟩

/-- C4 (amended): the normalizer is idempotent exactly past a clean fixed
point: whenever the first application's output is left unchanged by the
cleanup pipeline and fits under the drawn length budget, a second
application (same persona, same signals, same draws) returns it
unchanged.  Texts merely free of parentheticals, disclaimers and
third-person self-references may still be rewritten by the other cleanup
stages (dangling conjunctions, role labels, physical actions,
whitespace repair), which breaks idempotence. -/
theorem C4_normalizer_idempotent_amended (t a : Str) (sig : Signals) (r1 r2 : ℚ)
    (hclean : cleanupPhase a (processResponse t a sig r1 r2) = processResponse t a sig r1 r2)
    (hlen : (charLimitOf (processResponse t a sig r1 r2) a sig r1 r2).blt
        (Frac.ofNat (processResponse t a sig r1 r2).length) = false) :
    processResponse (processResponse t a sig r1 r2) a sig r1 r2
      = processResponse t a sig r1 r2 :=
  processResponse_fixed (processResponse t a sig r1 r2) a sig r1 r2 hclean hlen

/-- Witness for C4's amended claim: `"Hello there."` is already clean and
far under the budget, so the second application is the identity. -/
theorem C4_normalizer_idempotent_amended_witness :
    (cleanupPhase (strL "Analyst Alex")
        (processResponse (strL "Hello there.") (strL "Analyst Alex") { turn := 1 } 0 0)
      = processResponse (strL "Hello there.") (strL "Analyst Alex") { turn := 1 } 0 0) ∧
    processResponse (processResponse (strL "Hello there.") (strL "Analyst Alex")
        { turn := 1 } 0 0) (strL "Analyst Alex") { turn := 1 } 0 0
      = processResponse (strL "Hello there.") (strL "Analyst Alex") { turn := 1 } 0 0 :=
  ⟨by decide,
   C4_normalizer_idempotent_amended (strL "Hello there.") (strL "Analyst Alex")
     { turn := 1 } 0 0 (by decide) (by decide)⟩

/-! ### Terminator-free texts and the truncation (for C6) -/

theorem lastTermIdx_none (s : Str) (h : ∀ c ∈ s, isTermChar c = false) :
    lastTermIdx s = none := by
  induction s with
  | nil => rfl
  | cons c rest ih =>
    unfold lastTermIdx
    rw [ih (fun d hd => h d (List.mem_cons_of_mem c hd))]
    simp [h c (List.mem_cons_self c rest)]

theorem splitCharsBy_none (p : Char → Bool) (s : Str) (h : ∀ c ∈ s, p c = false) :
    splitCharsBy p s = [s] := by
  induction s with
  | nil => rfl
  | cons c rest ih =>
    unfold splitCharsBy
    rw [ih (fun d hd => h d (List.mem_cons_of_mem c hd))]
    simp [h c (List.mem_cons_self c rest)]

theorem firstLineLastTerm_none (s : Str)
    (hterm : ∀ c ∈ s, isTermChar c = false)
    (hbr : ∀ c ∈ s, lineBreakChar c = false) :
    firstLineLastTerm s = none := by
  unfold firstLineLastTerm
  rw [splitCharsBy_none lineBreakChar s hbr]
  simp [lastTermIdx_none s hterm]

theorem firstLineLastTerm_take_none (s : Str) (k : Nat)
    (hterm : ∀ c ∈ s, isTermChar c = false)
    (hbr : ∀ c ∈ s, lineBreakChar c = false) :
    firstLineLastTerm (s.take k) = none :=
  firstLineLastTerm_none _ (fun c hc => hterm c (List.take_subset k s hc))
    (fun c hc => hbr c (List.take_subset k s hc))

theorem splitOnSubF_no_nl (s : Str) (hbr : ∀ c ∈ s, lineBreakChar c = false) :
    ∀ (fuel : Nat) (acc : Str), s.length ≤ fuel →
      splitOnSubF (strL "\n\n") fuel acc s = [acc.reverse ++ s] := by
  induction s with
  | nil =>
    intro fuel acc _
    cases fuel <;> simp [splitOnSubF]
  | cons c rest ih =>
    intro fuel acc hle
    cases fuel with
    | zero => simp at hle
    | succ f =>
      unfold splitOnSubF
      have hcc := hbr c (List.mem_cons_self c rest)
      have hcne : ('\n' : Char) ≠ c := by
        intro h
        rw [← h] at hcc
        simp [lineBreakChar] at hcc
      have hc : (strL "\n\n").isPrefixOf (c :: rest) = false := by
        have e : strL "\n\n" = '\n' :: ['\n'] := rfl
        rw [e]
        simp [List.isPrefixOf, hcne]
      rw [hc]
      simp only [ne_eq, Bool.false_eq_true, and_false, if_false, ite_false]
      rw [ih (fun d hd => hbr d (List.mem_cons_of_mem c hd)) f (c :: acc)
        (by simp at hle; omega)]
      simp

theorem splitOnSub_no_nl (s : Str) (hbr : ∀ c ∈ s, lineBreakChar c = false) :
    splitOnSub (strL "\n\n") s = [s] := by
  unfold splitOnSub
  rw [splitOnSubF_no_nl s hbr s.length [] le_rfl]
  simp

/-- Main-factor bounds with technical content arbitrary: every branch of
the chain, the `1.4` branch included, lies in `[1/2, 7/5]`. -/
theorem mainFactor_bounds_all (a : Str) (w c d : Bool) (t : Nat) (tech brief : Bool) :
    1 / 2 ≤ (mainFactor a w c d t tech brief).toRat ∧
    (mainFactor a w c d t tech brief).toRat ≤ 7 / 5 := by
  unfold mainFactor
  split_ifs <;> constructor <;> norm_num [fq, Frac.toRat]

/-- The technical bonus lies in `[1, 23/20]`. -/
theorem techFactor_bounds (a : Str) (tech : Bool) :
    1 ≤ (techFactor a tech).toRat ∧ (techFactor a tech).toRat ≤ 23 / 20 := by
  unfold techFactor
  split_ifs <;> constructor <;> norm_num [fq, Frac.toRat]

/-- The computed limit is the product of the base limit, the main
factor, the technical bonus and the jitter, for some values of the
derived flags. -/
theorem charLimit_shape_all (text a : Str) (sig : Signals) (r1 r2 : ℚ) :
    ∃ w c d t tech brief, charLimitOf text a sig r1 r2
      = (((baseLimitOf a).mul (mainFactor a w c d t tech brief)).mul
          (techFactor a tech)).mul (jitterOf r2) := by
  unfold charLimitOf
  exact ⟨_, _, _, _, _, _, rfl⟩

/-- Computed-limit bounds for an arbitrary response text (technical
content allowed): with a jitter draw in `[0, 1)` the limit lies in
`[17/40 · B, 3703/2000 · B)` for base limit `B` — in particular below
`3 · B`. -/
theorem charLimit_bounds_all (text a : Str) (sig : Signals) (r1 r2 : ℚ)
    (h0 : 0 ≤ r2) (h1 : r2 < 1) :
    (17 / 40) * (baseLimitOf a).toRat ≤ (charLimitOf text a sig r1 r2).toRat ∧
    (charLimitOf text a sig r1 r2).toRat < (3703 / 2000) * (baseLimitOf a).toRat := by
  obtain ⟨w, c, d, t, tech, brief, hshape⟩ := charLimit_shape_all text a sig r1 r2
  rw [hshape, Frac.toRat_mul, Frac.toRat_mul, Frac.toRat_mul]
  have hB := baseLimit_toRat_bounds a
  have hf := mainFactor_bounds_all a w c d t tech brief
  have htf := techFactor_bounds a tech
  have hj := jitter_bounds r2 h0 h1
  have hBpos : (0 : ℚ) < (baseLimitOf a).toRat := by linarith
  have hfpos : (0 : ℚ) ≤ (mainFactor a w c d t tech brief).toRat := by linarith
  have htfpos : (0 : ℚ) ≤ (techFactor a tech).toRat := by linarith
  have hjpos : (0 : ℚ) ≤ (jitterOf r2).toRat := by linarith
  have hg_low : (1 / 2 : ℚ)
      ≤ (mainFactor a w c d t tech brief).toRat * (techFactor a tech).toRat := by
    nlinarith [mul_le_mul_of_nonneg_left htf.1 hfpos]
  have hg_hi : (mainFactor a w c d t tech brief).toRat * (techFactor a tech).toRat
      ≤ 161 / 100 := by
    nlinarith [mul_le_mul hf.2 htf.2 htfpos (by norm_num : (0 : ℚ) ≤ 7 / 5)]
  have hg_nonneg : (0 : ℚ)
      ≤ (mainFactor a w c d t tech brief).toRat * (techFactor a tech).toRat := by
    linarith
  constructor
  · nlinarith [mul_le_mul_of_nonneg_left
      (mul_le_mul hg_low hj.1 (by norm_num) hg_nonneg) hBpos.le]
  · nlinarith [mul_le_mul_of_nonneg_right hg_hi hjpos,
      mul_lt_mul_of_pos_left hj.2 (by norm_num : (0 : ℚ) < 161 / 100),
      mul_lt_mul_of_pos_left
        (by nlinarith [mul_le_mul_of_nonneg_right hg_hi hjpos,
              mul_lt_mul_of_pos_left hj.2 (by norm_num : (0 : ℚ) < 161 / 100)] :
          (mainFactor a w c d t tech brief).toRat * (techFactor a tech).toRat
              * (jitterOf r2).toRat < 3703 / 2000)
        hBpos]

/-- Any text of length `3 · B` with no sentence terminators and no line
breaks is truncated to the empty string: the limit is always exceeded,
approach 1 finds no sentence to cut at, and the single overflowing
paragraph contributes nothing. -/
theorem lengthAdjust_noTerm (a : Str) (B : Nat)
    (hB : baseLimitOf a = Frac.ofNat B) (hB750 : 750 ≤ B)
    (s : Str) (hlen : s.length = 3 * B)
    (hterm : ∀ c ∈ s, isTermChar c = false)
    (hbr : ∀ c ∈ s, lineBreakChar c = false)
    (sig : Signals) (r1 r2 : ℚ) (h0 : 0 ≤ r2) (h1 : r2 < 1) :
    applyDynamicLengthAdjustment s a sig r1 r2 = [] := by
  have hbounds := charLimit_bounds_all s a sig r1 r2 h0 h1
  have hBrat : (baseLimitOf a).toRat = (B : ℚ) := by rw [hB, Frac.toRat_ofNat]
  rw [hBrat] at hbounds
  have hden := charLimit_den_pos s a sig r1 r2
  have hBpos : (0 : ℚ) < (B : ℚ) := by exact_mod_cast (by omega : 0 < B)
  have hB750q : (750 : ℚ) ≤ (B : ℚ) := by exact_mod_cast hB750
  have hlt3B : (charLimitOf s a sig r1 r2).toRat < ((s.length : Nat) : ℚ) := by
    rw [hlen]
    push_cast
    nlinarith [hbounds.2]
  have hgt80 : (80 : ℚ) < (charLimitOf s a sig r1 r2).toRat := by
    nlinarith [hbounds.1]
  have hblt : (charLimitOf s a sig r1 r2).blt (Frac.ofNat s.length) = true := by
    rw [Frac.blt_iff hden (by norm_num [Frac.ofNat]), Frac.toRat_ofNat]
    exact hlt3B
  have hble_false : (Frac.ofNat s.length).ble (charLimitOf s a sig r1 r2) = false := by
    rw [Frac.ble_eq_false_iff (by norm_num [Frac.ofNat]) hden, Frac.toRat_ofNat]
    exact not_le.mpr hlt3B
  unfold applyDynamicLengthAdjustment
  dsimp only
  rw [hblt]
  simp only [if_true]
  rw [firstLineLastTerm_take_none s _ hterm hbr]
  rw [splitOnSub_no_nl s hbr]
  unfold paraGo
  simp only [List.nil_append] at hble_false ⊢
  rw [hble_false]
  simp only [Bool.false_eq_true, if_false, ite_false]
  have hrem_blt : (Frac.ofNat 80).blt
      ((charLimitOf s a sig r1 r2).sub (Frac.ofNat (List.length ([] : Str)))) = true := by
    rw [Frac.blt_iff (by norm_num [Frac.ofNat])
        (Frac.den_pos_sub hden (by norm_num [Frac.ofNat])),
      Frac.toRat_sub hden.ne' (by norm_num [Frac.ofNat]), Frac.toRat_ofNat, Frac.toRat_ofNat]
    simpa using hgt80
  rw [hrem_blt]
  simp only [if_true]
  rw [firstLineLastTerm_take_none s _ hterm hbr]
  rfl

/-- C6 (corrected claim refuted): for Analyst Alex (base budget
`B = 1200`) and the generated text of 3600 letters `a` — length `3·B`,
with no sentence boundary anywhere, hence none near `B` — the normalized
result is the empty string: its length is within `B`, but it does not end
at a sentence terminator, contradicting the claim's conclusion. -/
theorem C6_truncation_counterexample :
    applyDynamicLengthAdjustment (List.replicate (3 * 1200) 'a') (strL "Analyst Alex")
        { turn := 1 } 0 0 = [] ∧
    (List.replicate (3 * 1200) 'a').length = 3 * 1200 ∧
    lastTermIdx (List.replicate (3 * 1200) 'a') = none ∧
    endsWithTerm [] = false :=
  ⟨lengthAdjust_noTerm (strL "Analyst Alex") 1200 (by decide) (by norm_num)
      (List.replicate (3 * 1200) 'a') (List.length_replicate _ _)
      (fun c hc => by rw [List.eq_of_mem_replicate hc]; rfl)
      (fun c hc => by rw [List.eq_of_mem_replicate hc]; rfl)
      { turn := 1 } 0 0 le_rfl (by norm_num),
   List.length_replicate _ _,
   lastTermIdx_none _ (fun c hc => by rw [List.eq_of_mem_replicate hc]; rfl),
   rfl⟩

/-- C6 (amended): for every persona with base budget `B` and every
generated text of length `3·B` with no sentence boundaries at all (no
`.`, `!` or `?`, and no line breaks), the normalized result is empty —
its length is within `B`, but it does not end at a sentence terminator.
The claim's "ends at a sentence terminator" conclusion requires a
sentence boundary that survives truncation to exist in the text. -/
theorem C6_truncation_amended (a : Str) (B : Nat) (s : Str) (sig : Signals) (r1 r2 : ℚ)
    (hmem : (a, B) ∈ [(strL "Analyst Alex", 1200), (strL "Curious Clara", 750),
        (strL "Strategic Sam", 850)])
    (hlen : s.length = 3 * B)
    (hterm : ∀ c ∈ s, isTermChar c = false)
    (hbr : ∀ c ∈ s, lineBreakChar c = false)
    (h0 : 0 ≤ r2) (h1 : r2 < 1) :
    applyDynamicLengthAdjustment s a sig r1 r2 = [] ∧
    (([] : Str).length ≤ B) ∧ endsWithTerm [] = false := by
  refine ⟨?_, by simp, rfl⟩
  have hBfacts : baseLimitOf a = Frac.ofNat B ∧ 750 ≤ B := by
    simp only [List.mem_cons, List.not_mem_nil, or_false, Prod.mk.injEq] at hmem
    rcases hmem with ⟨ha, hb⟩ | ⟨ha, hb⟩ | ⟨ha, hb⟩ <;> subst ha <;> subst hb <;>
      exact ⟨by decide, by norm_num⟩
  exact lengthAdjust_noTerm a B hBfacts.1 hBfacts.2 s hlen hterm hbr sig r1 r2 h0 h1

/-- Witness for C6's amended claim: Curious Clara, budget 750, on a
terminator-free text that is not all one letter (it even contains the
word `data`, so the technical-content bonus is exercised), at concrete
draws. -/
theorem C6_truncation_amended_witness :
    ((strL "Curious Clara", 750) ∈ [(strL "Analyst Alex", 1200), (strL "Curious Clara", 750),
        (strL "Strategic Sam", 850)]) ∧
    (strL "data " ++ List.replicate (3 * 750 - 5) 'x').length = 3 * 750 ∧
    applyDynamicLengthAdjustment (strL "data " ++ List.replicate (3 * 750 - 5) 'x')
        (strL "Curious Clara") { turn := 1 } 0 0 = [] :=
  ⟨by decide,
   by rw [List.length_append, List.length_replicate]; rfl,
   (C6_truncation_amended (strL "Curious Clara") 750
      (strL "data " ++ List.replicate (3 * 750 - 5) 'x') { turn := 1 } 0 0
      (by decide)
      (by rw [List.length_append, List.length_replicate]; rfl)
      (fun c hc => by
        rcases List.mem_append.mp hc with h | h
        · fin_cases h <;> rfl
        · rw [List.eq_of_mem_replicate h]; rfl)
      (fun c hc => by
        rcases List.mem_append.mp hc with h | h
        · fin_cases h <;> rfl
        · rw [List.eq_of_mem_replicate h]; rfl)
      le_rfl (by norm_num)).1⟩

end Unifai
